import Mathlib

/-!
Verification of the storj uplink client data path.

The development embeds, in Lean, the data model and operations of the
uplink client: the Reed-Solomon redundancy strategy (modelled from the
specification, since the erasure coder itself lives outside the observed
sources), the `Config.GetMetainfo` construction sequence, the key-file
loader `keyFilepath.Key`, the setup command's `SaveEncryptionKey` and
`cmdSetup`, the unimplemented partial-upload session methods, and the
`kvmetainfo` bucket operations.  Theorems about these definitions settle
the specification's claims.

Go integers are embedded as `Int` (64-bit overflow is out of range for
every quantity involved here); the explicit `int16`/`int32` conversions
written in the source are embedded as two's-complement reductions.
External effects (TLS setup, the metainfo network connection, encrypted
size calculation, stream store construction) are oracles in an `Env`
record; file contents and permissions live in an explicit `FS` value.
-/

/-! ## Reed-Solomon redundancy strategy (modelled from the spec) -/

/-- The field used by the Reed-Solomon model.  The spec bounds the share
count by a practical ceiling of 256, so a prime field with at least 257
elements provides distinct evaluation points for every share index. -/
abbrev GF : Type := ZMod 257

instance : Fact (Nat.Prime 257) := ⟨by norm_num⟩

/-- Multiplicative inverse in `GF`, computed by Fermat's little theorem
(`x⁻¹ = x ^ (257 - 2)`), so that the model evaluates inside the kernel. -/
def gfInv (x : GF) : GF := x ^ 255

/-- Evaluation of the Lagrange basis polynomial for node `j` of node set
`s` (nodes are share indices, embedded into `GF`) at the point `x`. -/
def lagBasisEval (s : Finset ℕ) (j : ℕ) (x : GF) : GF :=
  ∏ l ∈ s.erase j, (x - (l : GF)) * gfInv ((j : GF) - (l : GF))

/-- Evaluation at `x` of the Lagrange interpolation polynomial through
the points `(j, r j)` for `j ∈ s`. -/
def lagEval (s : Finset ℕ) (r : ℕ → GF) (x : GF) : GF :=
  ∑ j ∈ s, r j * lagBasisEval s j x

/-- Modelled from the spec: the Reed-Solomon erasure `Encode` of the
redundancy strategy (`infectious.NewFEC` / `eestream`, outside the
observed sources).  A stripe of `k` data units `d 0, …, d (k-1)` is
encoded by the unique polynomial `P` of degree `< k` with `P(i) = d i`
for `i < k`; share number `j` carries `P(j)`.  Shares `0, …, k-1`
reproduce the data (the code is systematic) and any `k` shares
determine `P`. -/
def rsEncode (k : ℕ) (d : ℕ → GF) (j : ℕ) : GF :=
  lagEval (Finset.range k) d (j : GF)

/-- Modelled from the spec: the Reed-Solomon erasure `Decode`.  Given the
surviving share numbers `s` and the share values, it interpolates the
polynomial through the surviving points and reads the data back off as
its values at `0, …, k-1`.  Only shares with numbers in `s` are read. -/
def rsDecode (s : Finset ℕ) (shares : ℕ → GF) (i : ℕ) : GF :=
  lagEval s shares (i : GF)

/-- Concrete data stripe used to exercise the erasure round trip. -/
def c1Data : ℕ → GF := fun m => (m : GF) + 1

/-! ## Uplink configuration (`RSConfig`, `EncryptionConfig`,
`ClientConfig`, `Config` from the uplink package) -/

/-- `RSConfig`: redundancy strategy configuration.  `memory.Size` values
are byte counts, embedded as `Int`. -/
structure RSConfig where
  maxBufferMem : Int
  erasureShareSize : Int
  minThreshold : Int
  repairThreshold : Int
  successThreshold : Int
  maxThreshold : Int
deriving DecidableEq

/-- `EncryptionConfig`: segment encryption configuration. -/
structure EncryptionConfig where
  key : String
  keyFilepath : String
  blockSize : Int
  dataType : Int
  pathType : Int
deriving DecidableEq

/-- `ClientConfig`: network-facing uplink configuration. -/
structure ClientConfig where
  apiKey : String
  satelliteAddr : String
  maxInlineSize : Int
  segmentSize : Int
deriving DecidableEq

/-- `Config`: the uplink configuration (TLS options are consumed only by
the external TLS oracle and carry no data the claims mention). -/
structure Config where
  client : ClientConfig
  rs : RSConfig
  enc : EncryptionConfig
deriving DecidableEq

/-- Go's `int16(x)` conversion: two's-complement reduction. -/
def toInt16 (x : Int) : Int := (x + 2 ^ 15) % 2 ^ 16 - 2 ^ 15

/-- Go's `int32(x)` conversion: two's-complement reduction. -/
def toInt32 (x : Int) : Int := (x + 2 ^ 31) % 2 ^ 32 - 2 ^ 31

/-- Redundancy algorithm identifiers of `storj.RedundancyScheme`
(modelled from the spec; the zero value is the invalid algorithm and
`ReedSolomon` is the algorithm the uplink configures). -/
inductive RedundancyAlgorithm where
  | invalidAlgorithm
  | reedSolomon
deriving DecidableEq

/-- `storj.RedundancyScheme`: share-count fields are `int16` in the
source; the values stored here are the results of the explicit `int16`
conversions in `Config.GetRedundancyScheme`. -/
structure RedundancyScheme where
  algorithm : RedundancyAlgorithm
  requiredShares : Int
  repairShares : Int
  optimalShares : Int
  totalShares : Int
deriving DecidableEq

/-- `storj.EncryptionScheme`: cipher kind plus `int32` block size. -/
structure EncryptionScheme where
  cipher : Int
  blockSize : Int
deriving DecidableEq

/-- `Config.GetRedundancyScheme`: the configured redundancy scheme for
new uploads, with Go's `int16(...)` conversions embedded. -/
def Config.getRedundancyScheme (c : Config) : RedundancyScheme where
  algorithm := RedundancyAlgorithm.reedSolomon
  requiredShares := toInt16 c.rs.minThreshold
  repairShares := toInt16 c.rs.repairThreshold
  optimalShares := toInt16 c.rs.successThreshold
  totalShares := toInt16 c.rs.maxThreshold

/-- `Config.GetEncryptionScheme`: the configured encryption scheme for
new uploads, with Go's `int32(...)` conversion embedded. -/
def Config.getEncryptionScheme (c : Config) : EncryptionScheme where
  cipher := c.enc.dataType
  blockSize := toInt32 c.enc.blockSize

/-! ## File system model -/

/-- A regular file: permission bits and content bytes. -/
structure GoFile where
  perm : Nat
  data : List UInt8
deriving DecidableEq

/-- The file system visible to the client: regular files by path, and
directory existence by path. -/
structure FS where
  files : String → Option GoFile
  dirExists : String → Bool

/-- Overwrite (or create) the file at `p`. -/
def FS.write (fs : FS) (p : String) (f : GoFile) : FS where
  files := fun q => if q = p then some f else fs.files q
  dirExists := fs.dirExists

/-- `os.MkdirAll`: afterwards the directory exists. -/
def FS.mkdirAll (fs : FS) (d : String) : FS where
  files := fs.files
  dirExists := fun q => if q = d then true else fs.dirExists q

/-- Drop the last `/`-separated component of a path (the text after the
final slash, and the slash itself). -/
def removeLastComponent (cs : List Char) : List Char :=
  ((cs.reverse.dropWhile (fun c => c ≠ '/')).drop 1).reverse

/-- The parent directory of a path. -/
def parentDir (p : String) : String := ⟨removeLastComponent p.data⟩

/-! ## `keyFilepath.Key` -/

/-- The errors `keyFilepath.Key` distinguishes: the key file is missing,
or its permission bits are not exactly `0400`. -/
inductive KeyError where
  | notFound
  | permTooOpen
deriving DecidableEq

/-- `storj.Key{}`: the zero key (32 zero bytes). -/
def zeroKey : List UInt8 := List.replicate 32 0

/-- Reading into a 32-byte `storj.Key` array: the first 32 bytes of the
file, zero-padded when the file is shorter (a short read leaves the
remaining array bytes zero). -/
def keyFromData (data : List UInt8) : List UInt8 :=
  data.take 32 ++ List.replicate (32 - data.length) 0

/-- `keyFilepath.Key`: opens the key file, rejects it unless its
permission bits are exactly `0400`, and reads the root key from it.
Returns the Go pair (key value, error): the zero key accompanies every
error. -/
def keyFilepathKey (fs : FS) (kfp : String) : List UInt8 × Option KeyError :=
  match fs.files kfp with
  | none => (zeroKey, some KeyError.notFound)
  | some f =>
    if f.perm ≠ 0o400 then (zeroKey, some KeyError.permTooOpen)
    else (keyFromData f.data, none)

/-! ## `Config.GetMetainfo` -/

/-- Externally observable I/O events of `Config.GetMetainfo`: the network
connection to the metainfo service, and the read of the key file. -/
inductive Event where
  | connectMetainfo
  | readKeyFile
deriving DecidableEq

/-- The error outcomes of `Config.GetMetainfo`, in source order.
`modByZeroPanic` stands for the Go runtime panic of `% 0` when the
configured block size is zero. -/
inductive GoError where
  | tlsFail
  | satelliteAddrNotSpecified
  | connectFail
  | erasureCodingFail
  | redundancyStrategyFail
  | calcEncryptedSizeFail
  | modByZeroPanic
  | blockSizeMismatch
  | keyFileFail (e : KeyError)
  | streamStoreFail
deriving DecidableEq

instance {α β : Type} [DecidableEq α] [DecidableEq β] : DecidableEq (Except α β) :=
  fun a b =>
    match a, b with
    | Except.error x, Except.error y =>
      if h : x = y then isTrue (by rw [h]) else isFalse (by intro hc; cases hc; exact h rfl)
    | Except.error _, Except.ok _ => isFalse (by intro hc; cases hc)
    | Except.ok _, Except.error _ => isFalse (by intro hc; cases hc)
    | Except.ok x, Except.ok y =>
      if h : x = y then isTrue (by rw [h]) else isFalse (by intro hc; cases hc; exact h rfl)

/-- Oracles for the external fallible steps of `Config.GetMetainfo`
(TLS option construction, the metainfo connection, encrypted-size
calculation, stream store construction), plus the file system the key
file is read from. -/
structure Env where
  tlsOk : Bool
  connectOk : Bool
  calcOk : Bool
  streamStoreOk : Bool
  fs : FS

/-- The stores `Config.GetMetainfo` returns on success; the root key
they were built around is the datum the claims mention. -/
structure Stores where
  rootKey : List UInt8
deriving DecidableEq

/-- `Config.GetMetainfo`, as the source sequences it: TLS options, the
satellite address check, the metainfo connection (a network operation,
recorded as an event), erasure coding client construction
(`infectious.NewFEC`, modelled from the spec: it validates
`0 < k ≤ n ≤ 256`), redundancy strategy construction (`eestream`,
modelled from the spec: it validates `k ≤ m ≤ o ≤ n` and a positive
share size), encrypted segment size calculation, the
`ErasureShareSize * MinThreshold % BlockSize` check, the key file read
(recorded as an event), and stream store construction.  Returns the
event trace together with the Go result; an error return carries no
stores. -/
def getMetainfo (c : Config) (env : Env) : List Event × Except GoError Stores :=
  if env.tlsOk = false then ([], Except.error GoError.tlsFail)
  else if c.client.satelliteAddr = "" then
    ([], Except.error GoError.satelliteAddrNotSpecified)
  else if env.connectOk = false then
    ([Event.connectMetainfo], Except.error GoError.connectFail)
  else if ¬ (0 < c.rs.minThreshold ∧ c.rs.minThreshold ≤ c.rs.maxThreshold ∧
      c.rs.maxThreshold ≤ 256) then
    ([Event.connectMetainfo], Except.error GoError.erasureCodingFail)
  else if ¬ (c.rs.minThreshold ≤ c.rs.repairThreshold ∧
      c.rs.repairThreshold ≤ c.rs.successThreshold ∧
      c.rs.successThreshold ≤ c.rs.maxThreshold ∧
      0 < c.rs.erasureShareSize) then
    ([Event.connectMetainfo], Except.error GoError.redundancyStrategyFail)
  else if env.calcOk = false then
    ([Event.connectMetainfo], Except.error GoError.calcEncryptedSizeFail)
  else if c.enc.blockSize = 0 then
    ([Event.connectMetainfo], Except.error GoError.modByZeroPanic)
  else if Int.tmod (c.rs.erasureShareSize * c.rs.minThreshold) c.enc.blockSize ≠ 0 then
    ([Event.connectMetainfo], Except.error GoError.blockSizeMismatch)
  else
    match keyFilepathKey env.fs c.enc.keyFilepath with
    | (_, some e) =>
      ([Event.connectMetainfo, Event.readKeyFile],
        Except.error (GoError.keyFileFail e))
    | (key, none) =>
      if env.streamStoreOk = false then
        ([Event.connectMetainfo, Event.readKeyFile],
          Except.error GoError.streamStoreFail)
      else
        ([Event.connectMetainfo, Event.readKeyFile], Except.ok { rootKey := key })

/-- An all-successful environment over an empty file system. -/
def okEnv : Env where
  tlsOk := true
  connectOk := true
  calcOk := true
  streamStoreOk := true
  fs := { files := fun _ => none, dirExists := fun _ => false }

/-- A configuration whose thresholds are valid (`k = m = o = n = 1`) but
whose share size times `k` is not a multiple of the block size
(`3 * 1 % 2 = 1`). -/
def mismatchCfg : Config where
  client := { apiKey := "key", satelliteAddr := "sat.test:7777",
              maxInlineSize := 4096, segmentSize := 65536 }
  rs := { maxBufferMem := 4096, erasureShareSize := 3, minThreshold := 1,
          repairThreshold := 1, successThreshold := 1, maxThreshold := 1 }
  enc := { key := "", keyFilepath := "cfg/.enc.key", blockSize := 2,
           dataType := 1, pathType := 1 }

/-- A configuration violating the threshold ordering: `k = 5 > m = 2`. -/
def badOrderCfg : Config where
  client := { apiKey := "key", satelliteAddr := "sat.test:7777",
              maxInlineSize := 4096, segmentSize := 65536 }
  rs := { maxBufferMem := 4096, erasureShareSize := 1024, minThreshold := 5,
          repairThreshold := 2, successThreshold := 8, maxThreshold := 10 }
  enc := { key := "", keyFilepath := "cfg/.enc.key", blockSize := 1024,
           dataType := 1, pathType := 1 }

/-- A configuration with `MinThreshold = 65536`, outside `int16` range. -/
def bigThresholdCfg : Config where
  client := { apiKey := "key", satelliteAddr := "sat.test:7777",
              maxInlineSize := 4096, segmentSize := 65536 }
  rs := { maxBufferMem := 4096, erasureShareSize := 1024,
          minThreshold := 65536, repairThreshold := 65536,
          successThreshold := 65536, maxThreshold := 65536 }
  enc := { key := "", keyFilepath := "cfg/.enc.key", blockSize := 1024,
           dataType := 1, pathType := 1 }

/-! ## Partial uploads (`lib/uplink` `Session`) -/

/-- The outcome of a Go call that may panic instead of returning. -/
inductive PanicOr (α : Type) where
  | panicked (msg : String)
  | value (a : α)
deriving DecidableEq

/-- `lib/uplink.Session`: a transport client and a gateway handle (their
contents are irrelevant to the claims; presence flags suffice). -/
structure Session where
  transportClientSet : Bool
  gatewaySet : Bool
deriving DecidableEq

/-- `Session.NewPartialUpload`: the body is `panic("TODO")`. -/
def Session.NewPartialUpload (s : Session) (bucket : String) :
    PanicOr String × Session :=
  (PanicOr.panicked "TODO", s)

/-- `Session.ListPartialUploads`: the body is `panic("TODO")`. -/
def Session.ListPartialUploads (s : Session) : PanicOr Unit × Session :=
  (PanicOr.panicked "TODO", s)

/-- `Session.PutPartialUpload`: the body is `panic("TODO")`. -/
def Session.PutPartialUpload (s : Session) : PanicOr Unit × Session :=
  (PanicOr.panicked "TODO", s)

/-- `Session.FinishPartialUpload`: the body is `panic("TODO")`. -/
def Session.FinishPartialUpload (s : Session) : PanicOr Unit × Session :=
  (PanicOr.panicked "TODO", s)

/-- `Session.AbortPartialUpload`: the body is `panic("TODO")`. -/
def Session.AbortPartialUpload (s : Session) (bucket uploadID : String) :
    PanicOr Unit × Session :=
  (PanicOr.panicked "TODO", s)

/-! ## `SaveEncryptionKey` and `cmdSetup` -/

/-- File-system operations `SaveEncryptionKey` performs, in order. -/
inductive FSEvent where
  | openCreate (path : String) (perm : Nat)
  | writeData (path : String) (data : List UInt8)
  | chmod (path : String) (perm : Nat)
deriving DecidableEq

/-- The errors `SaveEncryptionKey` distinguishes. -/
inductive SaveErr where
  | dirNotExist
  | fileKeyAlreadyExists
deriving DecidableEq

/-- `SaveEncryptionKey`: opens the target with
`O_CREATE | O_EXCL | O_WRONLY` and mode `0600` (failing if the directory
is missing or the file already exists), writes the key, then restricts
the file to `0400`. -/
def saveEncryptionKey (fs : FS) (key : List UInt8) (path : String) :
    Option SaveErr × FS × List FSEvent :=
  if fs.dirExists (parentDir path) = false then (some SaveErr.dirNotExist, fs, [])
  else if (fs.files path).isSome then (some SaveErr.fileKeyAlreadyExists, fs, [])
  else
    let fs1 := fs.write path ⟨0o600, []⟩
    let fs2 := fs1.write path ⟨0o600, key⟩
    let fs3 := fs2.write path ⟨0o400, key⟩
    (none, fs3,
      [FSEvent.openCreate path 0o600, FSEvent.writeData path key,
        FSEvent.chmod path 0o400])

/-- The interactive inputs `cmdSetup` consumes. -/
structure SetupInputs where
  nonInteractive : Bool
  satelliteAddress : String
  apiKey : String
  encKey : List UInt8
  repeatedEncKey : List UInt8
deriving DecidableEq

/-- The state `cmdSetup` starts from: the file system, whether
`fpath.IsValidSetupDir` accepted the configuration directory, and the
directory path. -/
structure SetupState where
  fs : FS
  setupDirValid : Bool
  setupDir : String

/-- The errors `cmdSetup` distinguishes. -/
inductive SetupErr where
  | alreadyExists
  | emptySatelliteAddress
  | emptyAPIKey
  | passphraseMismatch
  | saveKeyFailed (e : SaveErr)
deriving DecidableEq

/-- The key file path `cmdSetup` chooses. -/
def encKeyFilepath (dir : String) : String := dir ++ "/.enc.key"

/-- The configuration file path (`process.DefaultConfFilename`). -/
def configFilepath (dir : String) : String := dir ++ "/config.yaml"

/-- Bytes of a string (for serialized configuration content). -/
def strBytes (s : String) : List UInt8 :=
  s.data.map (fun c => UInt8.ofNat c.toNat)

/-- The configuration `SaveConfigWithAllDefaults` persists: the satellite
address, the API key and the key-file *path* override — not the
passphrase itself. -/
def serializeConfig (inp : SetupInputs) (dir : String) : List UInt8 :=
  strBytes (inp.satelliteAddress ++ "\n" ++ inp.apiKey ++ "\n" ++ encKeyFilepath dir)

/-- `cmdSetup`, as the source sequences it: reject an already-configured
directory, create the configuration directory, then (interactively)
validate the satellite address, the API key and the repeated
passphrase; a non-empty passphrase is saved with `SaveEncryptionKey`;
finally the configuration file is written.  Address normalization and
prompt I/O errors are not modelled.  Returns the Go error and the
resulting file system. -/
def cmdSetup (inp : SetupInputs) (st : SetupState) : Option SetupErr × FS :=
  if st.setupDirValid = false then (some SetupErr.alreadyExists, st.fs)
  else
    let fs1 := st.fs.mkdirAll st.setupDir
    if inp.nonInteractive then
      (none, fs1.write (configFilepath st.setupDir)
        ⟨0o600, serializeConfig inp st.setupDir⟩)
    else if inp.satelliteAddress = "" then (some SetupErr.emptySatelliteAddress, fs1)
    else if inp.apiKey = "" then (some SetupErr.emptyAPIKey, fs1)
    else if inp.encKey ≠ inp.repeatedEncKey then (some SetupErr.passphraseMismatch, fs1)
    else if inp.encKey = [] then
      (none, fs1.write (configFilepath st.setupDir)
        ⟨0o600, serializeConfig inp st.setupDir⟩)
    else
      match saveEncryptionKey fs1 inp.encKey (encKeyFilepath st.setupDir) with
      | (some e, fs2, _) => (some (SetupErr.saveKeyFailed e), fs2)
      | (none, fs2, _) =>
        (none, fs2.write (configFilepath st.setupDir)
          ⟨0o600, serializeConfig inp st.setupDir⟩)

/-- The passphrase bytes "secret". -/
def c6Key : List UInt8 := [115, 101, 99, 114, 101, 116]

/-- Interactive setup inputs with a confirmed non-empty passphrase. -/
def c6Inputs : SetupInputs where
  nonInteractive := false
  satelliteAddress := "sat.test:7777"
  apiKey := "apikey"
  encKey := c6Key
  repeatedEncKey := c6Key

/-- A fresh setup state: empty file system, valid setup directory. -/
def c6State : SetupState where
  fs := { files := fun _ => none, dirExists := fun _ => false }
  setupDirValid := true
  setupDir := "cfg"

/-- A file system with a `0400` key file at `d/k` and directory `d`. -/
def c9FS : FS where
  files := fun p => if p = "d/k" then some ⟨0o400, [7]⟩ else none
  dirExists := fun q => q = "d"

/-- A file system for exercising `keyFilepath.Key`: a correctly
restricted key file, an overly open one, and nothing else. -/
def c8FS : FS where
  files := fun p =>
    if p = "restricted" then some ⟨0o400, [1, 2, 3]⟩
    else if p = "open" then some ⟨0o644, [9]⟩
    else none
  dirExists := fun _ => false

/-! ## `kvmetainfo` bucket operations -/

/-- An error from the underlying bucket store (contents opaque). -/
structure StoreErr where
  code : Nat
deriving DecidableEq

/-- The errors a `Project` bucket operation returns: `storj.ErrNoBucket`
for an empty bucket name, or a store error passed through. -/
inductive ProjErr where
  | errNoBucket
  | storeFailure (e : StoreErr)
deriving DecidableEq

/-- `buckets.Meta`: what the bucket store persists per bucket.  The
source's `EncryptionParameters`/`EncryptionScheme` conversions are
value-preserving, so one type stands for both. -/
structure BucketsMeta where
  created : Int
  pathEncryptionType : Int
  segmentsSize : Int
  redundancyScheme : RedundancyScheme
  encryptionScheme : EncryptionScheme
deriving DecidableEq

/-- `storj.Bucket`. -/
structure Bucket where
  name : String
  created : Int
  pathCipher : Int
  segmentsSize : Int
  redundancyScheme : RedundancyScheme
  encryptionParameters : EncryptionScheme
deriving DecidableEq

/-- The zero `storj.RedundancyScheme`. -/
def emptyRedundancyScheme : RedundancyScheme :=
  ⟨RedundancyAlgorithm.invalidAlgorithm, 0, 0, 0, 0⟩

/-- The zero `storj.EncryptionScheme`. -/
def emptyEncryptionScheme : EncryptionScheme := ⟨0, 0⟩

/-- `storj.Bucket{}`: the zero bucket value. -/
def emptyBucket : Bucket := ⟨"", 0, 0, 0, emptyRedundancyScheme, emptyEncryptionScheme⟩

/-- A call into the underlying bucket store, as recorded by the model. -/
inductive StoreCall where
  | putCall (name : String)
  | getCall (name : String)
  | deleteCall (name : String)
deriving DecidableEq

/-- The underlying bucket store (`buckets.Store`), abstract over its
state type: `Put`, `Get` and `Delete` as state transformers. -/
structure BucketStoreModel (σ : Type) where
  putOp : σ → String → BucketsMeta → Except StoreErr BucketsMeta × σ
  getOp : σ → String → Except StoreErr BucketsMeta × σ
  deleteOp : σ → String → Option StoreErr × σ

/-- `getPathCipher`: the path cipher of the bucket info, `AESGCM` (cipher
kind 1) for nil info. -/
def getPathCipher (info : Option Bucket) : Int :=
  match info with
  | none => 1
  | some b => b.pathCipher

/-- `bucketFromMeta`. -/
def bucketFromMeta (bucketName : String) (meta : BucketsMeta) : Bucket :=
  ⟨bucketName, meta.created, meta.pathEncryptionType, meta.segmentsSize,
    meta.redundancyScheme, meta.encryptionScheme⟩

/-- `Project.CreateBucket`: rejects the empty bucket name with
`ErrNoBucket` (returning the zero bucket), otherwise stores the bucket
meta.  Returns the Go pair (bucket, error), the store state, and the
list of store calls performed. -/
def createBucket {σ : Type} (M : BucketStoreModel σ) (st : σ)
    (bucketName : String) (info : Option Bucket) :
    (Bucket × Option ProjErr) × σ × List StoreCall :=
  if bucketName = "" then ((emptyBucket, some ProjErr.errNoBucket), st, [])
  else
    let i := info.getD emptyBucket
    let meta : BucketsMeta :=
      ⟨0, getPathCipher (some i), i.segmentsSize, i.redundancyScheme,
        i.encryptionParameters⟩
    match M.putOp st bucketName meta with
    | (Except.error e, st') =>
      ((emptyBucket, some (ProjErr.storeFailure e)), st', [StoreCall.putCall bucketName])
    | (Except.ok m, st') =>
      ((bucketFromMeta bucketName m, none), st', [StoreCall.putCall bucketName])

/-- `Project.GetBucket`: rejects the empty bucket name with
`ErrNoBucket` (returning the zero bucket), otherwise reads the meta. -/
def getBucket {σ : Type} (M : BucketStoreModel σ) (st : σ) (bucketName : String) :
    (Bucket × Option ProjErr) × σ × List StoreCall :=
  if bucketName = "" then ((emptyBucket, some ProjErr.errNoBucket), st, [])
  else
    match M.getOp st bucketName with
    | (Except.error e, st') =>
      ((emptyBucket, some (ProjErr.storeFailure e)), st', [StoreCall.getCall bucketName])
    | (Except.ok m, st') =>
      ((bucketFromMeta bucketName m, none), st', [StoreCall.getCall bucketName])

/-- `Project.DeleteBucket`: rejects the empty bucket name with
`ErrNoBucket`, otherwise deletes through the store. -/
def deleteBucket {σ : Type} (M : BucketStoreModel σ) (st : σ) (bucketName : String) :
    Option ProjErr × σ × List StoreCall :=
  if bucketName = "" then (some ProjErr.errNoBucket, st, [])
  else
    match M.deleteOp st bucketName with
    | (e, st') => (e.map ProjErr.storeFailure, st', [StoreCall.deleteCall bucketName])

/-! ## Theorems -/

theorem gfInv_eq_inv (x : GF) : gfInv x = x⁻¹ := by
  unfold gfInv
  rcases eq_or_ne x 0 with rfl | hx
  · rw [inv_zero, zero_pow (by norm_num)]
  · refine (inv_eq_of_mul_eq_one_right ?_).symm
    have h : x ^ 256 = 1 := by
      have := ZMod.pow_card_sub_one_eq_one hx
      simpa using this
    calc x * x ^ 255 = x ^ 256 := by ring
    _ = 1 := h

theorem lagEval_eq_eval_interpolate (s : Finset ℕ) (r : ℕ → GF) (x : GF) :
    lagEval s r x =
      Polynomial.eval x (Lagrange.interpolate s (fun m : ℕ => (m : GF)) r) := by
  rw [Lagrange.interpolate_apply]
  unfold lagEval lagBasisEval
  rw [Polynomial.eval_finset_sum]
  refine Finset.sum_congr rfl fun j _ => ?_
  rw [Polynomial.eval_mul, Polynomial.eval_C, Lagrange.basis, Polynomial.eval_prod]
  refine congrArg (r j * ·) (Finset.prod_congr rfl fun l _ => ?_)
  rw [Lagrange.basisDivisor, gfInv_eq_inv]
  simp [mul_comm]

theorem natCast_injOn_GF (n : ℕ) (hn : n ≤ 257) :
    Set.InjOn (fun m : ℕ => (m : GF)) (Finset.range n) := by
  intro a ha b hb hab
  simp only [Finset.coe_range, Set.mem_Iio] at ha hb
  have h1 : (a : GF) = (b : GF) := hab
  rw [ZMod.natCast_eq_natCast_iff] at h1
  have := h1.eq_of_lt_of_lt (lt_of_lt_of_le ha hn) (lt_of_lt_of_le hb hn)
  exact this

/-- C1: For every plaintext stripe `P` (the `k` data units `d 0, …, d (k-1)`)
and every valid redundancy scheme with `0 < k ≤ n` (and `n` within the
practical share ceiling), decoding from any set `s` of `k` surviving share
numbers out of the `n` shares produced by `rsEncode` returns exactly the
original data, for every choice of which `k` shares survive.  The decoder
reads only shares with numbers in `s`, so up to `n - k` losses are
tolerated. -/
theorem rs_any_k_roundtrip (k n : ℕ) (d : ℕ → GF) (s : Finset ℕ)
    (hk : 0 < k) (hkn : k ≤ n) (hn : n ≤ 257)
    (hsub : s ⊆ Finset.range n) (hcard : s.card = k) :
    ∀ i ∈ Finset.range k, rsDecode s (fun j => rsEncode k d j) i = d i := by
  intro i hi
  have hinjk : Set.InjOn (fun m : ℕ => (m : GF)) (Finset.range k) :=
    natCast_injOn_GF k (le_trans hkn hn)
  have hinjs : Set.InjOn (fun m : ℕ => (m : GF)) s :=
    (natCast_injOn_GF n hn).mono (Finset.coe_subset.mpr hsub)
  have hdeg :
      (Lagrange.interpolate (Finset.range k) (fun m : ℕ => (m : GF)) d).degree
        < s.card := by
    rw [hcard]
    have h := Lagrange.degree_interpolate_lt d hinjk
    simpa using h
  have henc : (fun j => rsEncode k d j) = fun j : ℕ =>
      Polynomial.eval ((j : GF))
        (Lagrange.interpolate (Finset.range k) (fun m : ℕ => (m : GF)) d) := by
    funext j
    exact lagEval_eq_eval_interpolate (Finset.range k) d (j : GF)
  have hQ :
      Lagrange.interpolate s (fun m : ℕ => (m : GF)) (fun j : ℕ =>
        Polynomial.eval ((j : GF))
          (Lagrange.interpolate (Finset.range k) (fun m : ℕ => (m : GF)) d)) =
        Lagrange.interpolate (Finset.range k) (fun m : ℕ => (m : GF)) d :=
    (Lagrange.eq_interpolate hinjs hdeg).symm
  calc rsDecode s (fun j => rsEncode k d j) i
      = Polynomial.eval ((i : GF))
          (Lagrange.interpolate s (fun m : ℕ => (m : GF))
            (fun j => rsEncode k d j)) :=
        lagEval_eq_eval_interpolate s _ (i : GF)
    _ = Polynomial.eval ((i : GF))
          (Lagrange.interpolate (Finset.range k) (fun m : ℕ => (m : GF)) d) := by
        rw [henc, hQ]
    _ = d i := Lagrange.eval_interpolate_at_node d hinjk hi

/-- Witness for `rs_any_k_roundtrip`: with `k = 2`, `n = 3` and surviving
shares `{0, 2}`, both data units are recovered exactly. -/
theorem rs_any_k_roundtrip_witness :
    rsDecode {0, 2} (fun j => rsEncode 2 c1Data j) 0 = c1Data 0 ∧
    rsDecode {0, 2} (fun j => rsEncode 2 c1Data j) 1 = c1Data 1 :=
  ⟨rs_any_k_roundtrip 2 3 c1Data {0, 2} (by decide) (by decide) (by decide)
      (by decide) (by decide) 0 (by decide),
    rs_any_k_roundtrip 2 3 c1Data {0, 2} (by decide) (by decide) (by decide)
      (by decide) (by decide) 1 (by decide)⟩

theorem toInt16_eq_self (x : Int) (h1 : -2 ^ 15 ≤ x) (h2 : x < 2 ^ 15) :
    toInt16 x = x := by
  unfold toInt16
  rw [Int.emod_eq_of_lt (by omega) (by omega)]
  omega

theorem toInt32_eq_self (x : Int) (h1 : -2 ^ 31 ≤ x) (h2 : x < 2 ^ 31) :
    toInt32 x = x := by
  unfold toInt32
  rw [Int.emod_eq_of_lt (by omega) (by omega)]
  omega

/-- C7 counterexample: with `MinThreshold = 65536` the scheme returned by
`Config.GetRedundancyScheme` has `RequiredShares = 0`, which is not equal
to the configured `MinThreshold`: the source's `int16(...)` conversions
truncate, so the claimed field equality fails for configurations outside
`int16` range. -/
theorem redundancy_scheme_int16_counterexample :
    (Config.getRedundancyScheme bigThresholdCfg).requiredShares = 0 ∧
    bigThresholdCfg.rs.minThreshold = 65536 ∧ (0 : Int) ≠ 65536 := by
  refine ⟨?_, rfl, by decide⟩
  decide

/-- C7 (amended): whenever the configured thresholds fit in `int16` and
the block size fits in `int32`, `Config.GetRedundancyScheme` returns the
ReedSolomon scheme whose `RequiredShares`, `RepairShares`,
`OptimalShares` and `TotalShares` equal `MinThreshold`,
`RepairThreshold`, `SuccessThreshold` and `MaxThreshold` respectively,
and `Config.GetEncryptionScheme` returns the configured cipher kind and
block size (outside those ranges the values are reduced two's-complement
style, per the counterexample). -/
theorem scheme_getters_match_config (c : Config)
    (h1 : -2 ^ 15 ≤ c.rs.minThreshold ∧ c.rs.minThreshold < 2 ^ 15)
    (h2 : -2 ^ 15 ≤ c.rs.repairThreshold ∧ c.rs.repairThreshold < 2 ^ 15)
    (h3 : -2 ^ 15 ≤ c.rs.successThreshold ∧ c.rs.successThreshold < 2 ^ 15)
    (h4 : -2 ^ 15 ≤ c.rs.maxThreshold ∧ c.rs.maxThreshold < 2 ^ 15)
    (h5 : -2 ^ 31 ≤ c.enc.blockSize ∧ c.enc.blockSize < 2 ^ 31) :
    c.getRedundancyScheme =
      ⟨RedundancyAlgorithm.reedSolomon, c.rs.minThreshold, c.rs.repairThreshold,
        c.rs.successThreshold, c.rs.maxThreshold⟩ ∧
    c.getEncryptionScheme = ⟨c.enc.dataType, c.enc.blockSize⟩ := by
  constructor
  · unfold Config.getRedundancyScheme
    rw [toInt16_eq_self _ h1.1 h1.2, toInt16_eq_self _ h2.1 h2.2,
      toInt16_eq_self _ h3.1 h3.2, toInt16_eq_self _ h4.1 h4.2]
  · unfold Config.getEncryptionScheme
    rw [toInt32_eq_self _ h5.1 h5.2]

/-- Witness for `scheme_getters_match_config` at the in-range
configuration `mismatchCfg`. -/
theorem scheme_getters_match_config_witness :
    Config.getRedundancyScheme mismatchCfg =
      ⟨RedundancyAlgorithm.reedSolomon, 1, 1, 1, 1⟩ ∧
    Config.getEncryptionScheme mismatchCfg = ⟨1, 2⟩ :=
  scheme_getters_match_config mismatchCfg (by decide) (by decide) (by decide)
    (by decide) (by decide)

/-- C8: `keyFilepath.Key` returns the (distinct) not-found error and the
zero key when the key file does not exist; returns an error and the zero
key whenever the file exists with permission bits other than exactly
`0400`; and returns the key read from the file's contents exactly when
the permissions are `0400`. -/
theorem key_file_permission_gating (fs : FS) (p : String) :
    (fs.files p = none →
      keyFilepathKey fs p = (zeroKey, some KeyError.notFound)) ∧
    (∀ f, fs.files p = some f → f.perm ≠ 0o400 →
      keyFilepathKey fs p = (zeroKey, some KeyError.permTooOpen)) ∧
    (∀ f, fs.files p = some f → f.perm = 0o400 →
      keyFilepathKey fs p = (keyFromData f.data, none)) ∧
    KeyError.notFound ≠ KeyError.permTooOpen := by
  refine ⟨fun h => ?_, fun f h hp => ?_, fun f h hp => ?_, by decide⟩
  · simp [keyFilepathKey, h]
  · simp [keyFilepathKey, h, hp]
  · simp [keyFilepathKey, h, hp]

/-- Witness for `key_file_permission_gating` on `c8FS`: missing file,
overly open file, and correctly restricted file. -/
theorem key_file_permission_gating_witness :
    keyFilepathKey c8FS "missing" = (zeroKey, some KeyError.notFound) ∧
    keyFilepathKey c8FS "open" = (zeroKey, some KeyError.permTooOpen) ∧
    keyFilepathKey c8FS "restricted" = (keyFromData [1, 2, 3], none) :=
  ⟨(key_file_permission_gating c8FS "missing").1 (by decide),
    (key_file_permission_gating c8FS "open").2.1 ⟨0o644, [9]⟩ (by decide) (by decide),
    (key_file_permission_gating c8FS "restricted").2.2.1 ⟨0o400, [1, 2, 3]⟩
      (by decide) (by decide)⟩

/-- C9: `SaveEncryptionKey` never overwrites an existing file — whenever
a file exists at the target path the file system is returned unchanged,
and (with the directory present) the error is "file key already exists";
on success the file is created with mode `0600`, written, and then
restricted to `0400`, leaving every other path untouched. -/
theorem save_encryption_key_no_overwrite (fs : FS) (key : List UInt8) (path : String) :
    ((fs.files path).isSome = true → (saveEncryptionKey fs key path).2.1 = fs) ∧
    (fs.dirExists (parentDir path) = true → (fs.files path).isSome = true →
      saveEncryptionKey fs key path = (some SaveErr.fileKeyAlreadyExists, fs, [])) ∧
    (fs.dirExists (parentDir path) = true → fs.files path = none →
      (saveEncryptionKey fs key path).1 = none ∧
      ((saveEncryptionKey fs key path).2.1).files path = some ⟨0o400, key⟩ ∧
      (∀ q, q ≠ path → ((saveEncryptionKey fs key path).2.1).files q = fs.files q) ∧
      (saveEncryptionKey fs key path).2.2 =
        [FSEvent.openCreate path 0o600, FSEvent.writeData path key,
          FSEvent.chmod path 0o400]) := by
  refine ⟨fun hex => ?_, fun hd hex => ?_, fun hd hnone => ?_⟩
  · by_cases hdir : fs.dirExists (parentDir path) = false
    · simp [saveEncryptionKey, hdir]
    · simp only [Bool.not_eq_false] at hdir
      simp [saveEncryptionKey, hdir, hex]
  · simp [saveEncryptionKey, hd, hex]
  · have hex : (fs.files path).isSome = false := by simp [hnone]
    refine ⟨?_, ?_, fun q hq => ?_, ?_⟩
    · simp [saveEncryptionKey, hd, hex]
    · simp [saveEncryptionKey, hd, hex, FS.write]
    · simp [saveEncryptionKey, hd, hex, FS.write, hq]
    · simp [saveEncryptionKey, hd, hex]

/-- Witness for `save_encryption_key_no_overwrite` on `c9FS`: an existing
key file is left alone with the "already exists" error, and a fresh path
receives the key with permissions `0400`. -/
theorem save_encryption_key_no_overwrite_witness :
    saveEncryptionKey c9FS [1] "d/k" = (some SaveErr.fileKeyAlreadyExists, c9FS, []) ∧
    ((saveEncryptionKey c9FS [9] "d/new").2.1).files "d/new" = some ⟨0o400, [9]⟩ :=
  ⟨(save_encryption_key_no_overwrite c9FS [1] "d/k").2.1 (by decide) (by decide),
    ((save_encryption_key_no_overwrite c9FS [9] "d/new").2.2 (by decide)
      (by decide)).2.1⟩

/-- C5: every partial-upload operation of `Session` unconditionally
panics with "TODO" and leaves the session state unchanged — no upload
state change is ever performed. -/
theorem partial_uploads_unimplemented (s : Session) (bucket uploadID : String) :
    s.NewPartialUpload bucket = (PanicOr.panicked "TODO", s) ∧
    s.ListPartialUploads = (PanicOr.panicked "TODO", s) ∧
    s.PutPartialUpload = (PanicOr.panicked "TODO", s) ∧
    s.FinishPartialUpload = (PanicOr.panicked "TODO", s) ∧
    s.AbortPartialUpload bucket uploadID = (PanicOr.panicked "TODO", s) :=
  ⟨rfl, rfl, rfl, rfl, rfl⟩

/-- C10: with the empty bucket name, `Project.CreateBucket`,
`Project.GetBucket` and `Project.DeleteBucket` each return `ErrNoBucket`
without performing any call on the underlying bucket store and leaving
its state unchanged; `CreateBucket` and `GetBucket` additionally return
the zero `storj.Bucket` value. -/
theorem empty_bucket_name_rejected {σ : Type} (M : BucketStoreModel σ)
    (st : σ) (info : Option Bucket) :
    createBucket M st "" info = ((emptyBucket, some ProjErr.errNoBucket), st, []) ∧
    getBucket M st "" = ((emptyBucket, some ProjErr.errNoBucket), st, []) ∧
    deleteBucket M st "" = (some ProjErr.errNoBucket, st, []) :=
  ⟨by simp [createBucket], by simp [getBucket], by simp [deleteBucket]⟩

/-- C2: under the hypotheses that the steps preceding the block-size
check succeed (TLS options, satellite address present, metainfo
connection, a valid redundancy scheme, encrypted-size calculation) and
the block size is non-zero (Go's `% 0` would panic instead), the
construction fails with the block-size configuration error if and only
if `ErasureShareSize * MinThreshold mod BlockSize ≠ 0`; when the product
is an exact multiple the check passes. -/
theorem blockSize_check_iff (c : Config) (env : Env)
    (htls : env.tlsOk = true) (haddr : c.client.satelliteAddr ≠ "")
    (hconn : env.connectOk = true)
    (hscheme : 0 < c.rs.minThreshold ∧ c.rs.minThreshold ≤ c.rs.repairThreshold ∧
      c.rs.repairThreshold ≤ c.rs.successThreshold ∧
      c.rs.successThreshold ≤ c.rs.maxThreshold ∧ c.rs.maxThreshold ≤ 256 ∧
      0 < c.rs.erasureShareSize)
    (hcalc : env.calcOk = true) (hbs : c.enc.blockSize ≠ 0) :
    ((getMetainfo c env).2 = Except.error GoError.blockSizeMismatch ↔
      Int.tmod (c.rs.erasureShareSize * c.rs.minThreshold) c.enc.blockSize ≠ 0) := by
  obtain ⟨h1, h2, h3, h4, h5, h6⟩ := hscheme
  have hfec : ¬¬(0 < c.rs.minThreshold ∧ c.rs.minThreshold ≤ c.rs.maxThreshold ∧
      c.rs.maxThreshold ≤ 256) := not_not_intro ⟨h1, by omega, h5⟩
  have hrs : ¬¬(c.rs.minThreshold ≤ c.rs.repairThreshold ∧
      c.rs.repairThreshold ≤ c.rs.successThreshold ∧
      c.rs.successThreshold ≤ c.rs.maxThreshold ∧
      0 < c.rs.erasureShareSize) := not_not_intro ⟨h2, h3, h4, h6⟩
  unfold getMetainfo
  rw [if_neg (by simp [htls]), if_neg haddr, if_neg (by simp [hconn]),
    if_neg hfec, if_neg hrs, if_neg (by simp [hcalc]), if_neg hbs]
  by_cases hmod :
    Int.tmod (c.rs.erasureShareSize * c.rs.minThreshold) c.enc.blockSize ≠ 0
  · rw [if_pos hmod]
    simpa using hmod
  · rw [if_neg hmod]
    simp only [not_not] at hmod
    constructor
    · intro h
      exfalso
      rcases hk : keyFilepathKey env.fs c.enc.keyFilepath with ⟨key, _ | e⟩
      · rw [hk] at h
        by_cases hss : env.streamStoreOk = false <;> simp [hss] at h
      · rw [hk] at h
        simp at h
    · intro h
      exact absurd hmod h

/-- Witness for `blockSize_check_iff` at `mismatchCfg`
(`3 * 1 mod 2 = 1 ≠ 0`). -/
theorem blockSize_check_iff_witness :
    ((getMetainfo mismatchCfg okEnv).2 = Except.error GoError.blockSizeMismatch ↔
      Int.tmod (mismatchCfg.rs.erasureShareSize * mismatchCfg.rs.minThreshold)
        mismatchCfg.enc.blockSize ≠ 0) :=
  blockSize_check_iff mismatchCfg okEnv rfl (by decide) rfl (by decide) rfl (by decide)

/-- C3 counterexample: the claim says a configuration violation is
surfaced before any network operation is performed.  At `mismatchCfg`
(a share/block-size mismatch, a configuration violation) with every
external step succeeding, `Config.GetMetainfo` returns the configuration
error only after the metainfo connection — a network operation — has
already been performed: the event trace at the error return is
`[connectMetainfo]`, not the empty trace the claim requires. -/
theorem config_check_after_connect_counterexample :
    getMetainfo mismatchCfg okEnv =
      ([Event.connectMetainfo], Except.error GoError.blockSizeMismatch) ∧
    [Event.connectMetainfo] ≠ ([] : List Event) := by
  refine ⟨?_, by decide⟩
  decide

/-- C3 (amended): every configuration violation (invalid threshold
ordering, rejected by erasure coding or redundancy strategy
construction, or a share/block-size mismatch) causes a ConfigError
return from `Config.GetMetainfo` before the key file is read — the
trace at such an error is exactly the metainfo connection — but only
after the connection to the metainfo service has been attempted. -/
theorem config_violation_error_timing (c : Config) (env : Env) (e : GoError)
    (h : (getMetainfo c env).2 = Except.error e)
    (he : e = GoError.erasureCodingFail ∨ e = GoError.redundancyStrategyFail ∨
      e = GoError.blockSizeMismatch) :
    (getMetainfo c env).1 = [Event.connectMetainfo] := by
  rcases hp : getMetainfo c env with ⟨tr, res⟩
  rw [hp] at h
  have h2 : res = Except.error e := h
  subst h2
  show tr = [Event.connectMetainfo]
  clear h
  unfold getMetainfo at hp
  by_cases c1 : env.tlsOk = false
  · rw [if_pos c1] at hp
    injection hp with hA hB
    injection hB with hB2
    subst hB2
    rcases he with h | h | h <;> simp at h
  rw [if_neg c1] at hp
  by_cases c2 : c.client.satelliteAddr = ""
  · rw [if_pos c2] at hp
    injection hp with hA hB
    injection hB with hB2
    subst hB2
    rcases he with h | h | h <;> simp at h
  rw [if_neg c2] at hp
  by_cases c3 : env.connectOk = false
  · rw [if_pos c3] at hp
    injection hp with hA hB
    injection hB with hB2
    subst hB2
    rcases he with h | h | h <;> simp at h
  rw [if_neg c3] at hp
  by_cases c4 : ¬ (0 < c.rs.minThreshold ∧ c.rs.minThreshold ≤ c.rs.maxThreshold ∧
      c.rs.maxThreshold ≤ 256)
  · rw [if_pos c4] at hp
    injection hp with hA hB
    exact hA.symm
  rw [if_neg c4] at hp
  by_cases c5 : ¬ (c.rs.minThreshold ≤ c.rs.repairThreshold ∧
      c.rs.repairThreshold ≤ c.rs.successThreshold ∧
      c.rs.successThreshold ≤ c.rs.maxThreshold ∧ 0 < c.rs.erasureShareSize)
  · rw [if_pos c5] at hp
    injection hp with hA hB
    exact hA.symm
  rw [if_neg c5] at hp
  by_cases c6 : env.calcOk = false
  · rw [if_pos c6] at hp
    injection hp with hA hB
    injection hB with hB2
    subst hB2
    rcases he with h | h | h <;> simp at h
  rw [if_neg c6] at hp
  by_cases c7 : c.enc.blockSize = 0
  · rw [if_pos c7] at hp
    injection hp with hA hB
    injection hB with hB2
    subst hB2
    rcases he with h | h | h <;> simp at h
  rw [if_neg c7] at hp
  by_cases c8 : Int.tmod (c.rs.erasureShareSize * c.rs.minThreshold) c.enc.blockSize ≠ 0
  · rw [if_pos c8] at hp
    injection hp with hA hB
    exact hA.symm
  rw [if_neg c8] at hp
  split at hp
  · injection hp with hA hB
    injection hB with hB2
    subst hB2
    rcases he with h | h | h <;> simp at h
  by_cases c9 : env.streamStoreOk = false
  · rw [if_pos c9] at hp
    injection hp with hA hB
    injection hB with hB2
    subst hB2
    rcases he with h | h | h <;> simp at h
  rw [if_neg c9] at hp
  injection hp with hA hB
  injection hB

/-- Witness for `config_violation_error_timing` at `mismatchCfg`. -/
theorem config_violation_error_timing_witness :
    (getMetainfo mismatchCfg okEnv).1 = [Event.connectMetainfo] :=
  config_violation_error_timing mismatchCfg okEnv GoError.blockSizeMismatch
    (by decide) (Or.inr (Or.inr rfl))

theorem getMetainfo_ok_scheme_valid (c : Config) (env : Env) (st : Stores)
    (h : (getMetainfo c env).2 = Except.ok st) :
    0 < c.rs.minThreshold ∧ c.rs.minThreshold ≤ c.rs.repairThreshold ∧
    c.rs.repairThreshold ≤ c.rs.successThreshold ∧
    c.rs.successThreshold ≤ c.rs.maxThreshold := by
  rcases hp : getMetainfo c env with ⟨tr, res⟩
  rw [hp] at h
  have h2 : res = Except.ok st := h
  subst h2
  clear h
  unfold getMetainfo at hp
  by_cases c1 : env.tlsOk = false
  · rw [if_pos c1] at hp
    injection hp with hA hB
    injection hB
  rw [if_neg c1] at hp
  by_cases c2 : c.client.satelliteAddr = ""
  · rw [if_pos c2] at hp
    injection hp with hA hB
    injection hB
  rw [if_neg c2] at hp
  by_cases c3 : env.connectOk = false
  · rw [if_pos c3] at hp
    injection hp with hA hB
    injection hB
  rw [if_neg c3] at hp
  by_cases c4 : ¬ (0 < c.rs.minThreshold ∧ c.rs.minThreshold ≤ c.rs.maxThreshold ∧
      c.rs.maxThreshold ≤ 256)
  · rw [if_pos c4] at hp
    injection hp with hA hB
    injection hB
  rw [if_neg c4] at hp
  by_cases c5 : ¬ (c.rs.minThreshold ≤ c.rs.repairThreshold ∧
      c.rs.repairThreshold ≤ c.rs.successThreshold ∧
      c.rs.successThreshold ≤ c.rs.maxThreshold ∧ 0 < c.rs.erasureShareSize)
  · rw [if_pos c5] at hp
    injection hp with hA hB
    injection hB
  simp only [not_not] at c4 c5
  omega

/-- C4: for every configuration whose thresholds violate
`0 < k ≤ m ≤ o ≤ n`, `Config.GetMetainfo` never succeeds (so no stores
are returned), and — whenever the steps before the scheme construction
succeed — the error is the one from erasure coding client construction
(`infectious.NewFEC`) or from redundancy strategy construction
(`eestream.NewRedundancyStrategy`). -/
theorem invalid_scheme_rejected (c : Config) (env : Env)
    (hbad : ¬ (0 < c.rs.minThreshold ∧ c.rs.minThreshold ≤ c.rs.repairThreshold ∧
      c.rs.repairThreshold ≤ c.rs.successThreshold ∧
      c.rs.successThreshold ≤ c.rs.maxThreshold)) :
    (¬ ∃ st, (getMetainfo c env).2 = Except.ok st) ∧
    (env.tlsOk = true → c.client.satelliteAddr ≠ "" → env.connectOk = true →
      (getMetainfo c env).2 = Except.error GoError.erasureCodingFail ∨
      (getMetainfo c env).2 = Except.error GoError.redundancyStrategyFail) := by
  constructor
  · rintro ⟨st, hst⟩
    exact hbad (getMetainfo_ok_scheme_valid c env st hst)
  · intro htls haddr hconn
    unfold getMetainfo
    rw [if_neg (by simp [htls]), if_neg haddr, if_neg (by simp [hconn])]
    by_cases hfec : 0 < c.rs.minThreshold ∧ c.rs.minThreshold ≤ c.rs.maxThreshold ∧
        c.rs.maxThreshold ≤ 256
    · rw [if_neg (not_not_intro hfec)]
      have hrs : ¬ (c.rs.minThreshold ≤ c.rs.repairThreshold ∧
          c.rs.repairThreshold ≤ c.rs.successThreshold ∧
          c.rs.successThreshold ≤ c.rs.maxThreshold ∧
          0 < c.rs.erasureShareSize) := by
        intro hx
        exact hbad ⟨hfec.1, hx.1, hx.2.1, hx.2.2.1⟩
      rw [if_pos hrs]
      right
      rfl
    · rw [if_pos hfec]
      left
      rfl

/-- Witness for `invalid_scheme_rejected` at `badOrderCfg`
(`k = 5 > m = 2`): the redundancy strategy construction error. -/
theorem invalid_scheme_rejected_witness :
    (getMetainfo badOrderCfg okEnv).2 = Except.error GoError.redundancyStrategyFail :=
  ((invalid_scheme_rejected badOrderCfg okEnv (by decide)).2 rfl (by decide)
    rfl).resolve_left (by decide)

theorem dropWhile_until_slash (l r : List Char) (hl : ∀ c ∈ l, ¬ c = '/') :
    List.dropWhile (fun c => c ≠ '/') (l ++ '/' :: r) = '/' :: r := by
  induction l with
  | nil => simp [List.dropWhile]
  | cons a as ih =>
    have ha : ¬ a = '/' := hl a (List.mem_cons_self a as)
    rw [List.cons_append, List.dropWhile_cons, if_pos (by simp [ha])]
    exact ih fun c hc => hl c (List.mem_cons_of_mem a hc)

theorem parentDir_encKeyFilepath (d : String) : parentDir (encKeyFilepath d) = d := by
  obtain ⟨cs⟩ := d
  show String.mk (removeLastComponent (cs ++ ('/' :: ".enc.key".data))) = ⟨cs⟩
  unfold removeLastComponent
  rw [List.reverse_append, List.reverse_cons, List.append_assoc,
    List.singleton_append,
    dropWhile_until_slash (".enc.key".data.reverse) cs.reverse (by decide),
    List.drop_one, List.tail_cons, List.reverse_reverse]

theorem encKey_ne_config (d : String) : encKeyFilepath d ≠ configFilepath d := by
  obtain ⟨cs⟩ := d
  intro h
  have h2 : cs ++ ("/.enc.key").data = cs ++ ("/config.yaml").data :=
    congrArg String.data h
  have h3 := List.append_cancel_left h2
  exact absurd h3 (by decide)

theorem saveEncryptionKey_success (fs : FS) (key : List UInt8) (path : String)
    (hd : fs.dirExists (parentDir path) = true) (hnone : fs.files path = none) :
    saveEncryptionKey fs key path =
      (none,
        ((fs.write path ⟨0o600, []⟩).write path ⟨0o600, key⟩).write path ⟨0o400, key⟩,
        [FSEvent.openCreate path 0o600, FSEvent.writeData path key,
          FSEvent.chmod path 0o400]) := by
  unfold saveEncryptionKey
  rw [if_neg (by simp [hd]), if_neg (by simp [hnone])]

/-- C6 counterexample: the claim says no operation of the client writes
the session root key (or the passphrase it is taken from) to any
persistent store.  Running the setup command interactively with the
confirmed non-empty passphrase "secret" over a fresh file system leaves
the passphrase bytes stored in the key file `cfg/.enc.key`: the client
does persist the passphrase. -/
theorem root_key_persisted_counterexample :
    c6State.fs.files (encKeyFilepath "cfg") = none ∧
    ((cmdSetup c6Inputs c6State).2).files (encKeyFilepath "cfg") =
      some ⟨0o400, c6Key⟩ := by
  refine ⟨rfl, ?_⟩
  decide

/-- C6 (amended): the client persists the root key exactly once, at
setup time: `cmdSetup`, run interactively with a confirmed non-empty
passphrase and a fresh key file path, succeeds and writes the
passphrase to the key file (final permissions `0400`), touching no path
other than the key file and the configuration file (whose content is
the satellite address, the API key and the key-file path — not the
passphrase); the data-path core only ever reads the key file. -/
theorem setup_persists_passphrase_only_to_keyfile (inp : SetupInputs)
    (st : SetupState)
    (hvalid : st.setupDirValid = true) (hint : inp.nonInteractive = false)
    (haddr : inp.satelliteAddress ≠ "") (hapi : inp.apiKey ≠ "")
    (hmatch : inp.encKey = inp.repeatedEncKey) (hne : inp.encKey ≠ [])
    (hfile : st.fs.files (encKeyFilepath st.setupDir) = none) :
    (cmdSetup inp st).1 = none ∧
    ((cmdSetup inp st).2).files (encKeyFilepath st.setupDir) =
      some ⟨0o400, inp.encKey⟩ ∧
    (∀ p, p ≠ encKeyFilepath st.setupDir → p ≠ configFilepath st.setupDir →
      ((cmdSetup inp st).2).files p = st.fs.files p) := by
  unfold cmdSetup
  rw [if_neg (by simp [hvalid]), if_neg (by simp [hint]), if_neg haddr,
    if_neg hapi, if_neg (by simp [hmatch]), if_neg hne]
  have hdir : (st.fs.mkdirAll st.setupDir).dirExists
      (parentDir (encKeyFilepath st.setupDir)) = true := by
    rw [parentDir_encKeyFilepath]
    simp [FS.mkdirAll]
  have hfile1 : (st.fs.mkdirAll st.setupDir).files (encKeyFilepath st.setupDir) =
      none := hfile
  rw [saveEncryptionKey_success _ _ _ hdir hfile1]
  refine ⟨rfl, ?_, fun p hk hc => ?_⟩
  · simp [FS.write, encKey_ne_config st.setupDir]
  · simp [FS.write, FS.mkdirAll, hk, hc]

/-- Witness for `setup_persists_passphrase_only_to_keyfile` at the
concrete interactive setup `c6Inputs`/`c6State`. -/
theorem setup_persists_passphrase_witness :
    (cmdSetup c6Inputs c6State).1 = none ∧
    ((cmdSetup c6Inputs c6State).2).files (encKeyFilepath "cfg") =
      some ⟨0o400, c6Key⟩ :=
  ⟨(setup_persists_passphrase_only_to_keyfile c6Inputs c6State rfl rfl (by decide)
      (by decide) rfl (by decide) rfl).1,
    (setup_persists_passphrase_only_to_keyfile c6Inputs c6State rfl rfl (by decide)
      (by decide) rfl (by decide) rfl).2.1⟩
